import Mathlib

/-!
Verification of the midicontroller event-reconciliation core.

The Python source keeps per-extension state in two string-keyed dicts
(`attributes`, `metadata`) whose values are heterogeneous (numbers, strings,
booleans, `None`, lists of ints).  We embed those values as an inductive
`Value`, dicts as association lists whose lookup takes the most recent
binding (modelling in-place `dict[key] = value` assignment), and each
method of the source as a pure function from extension state (plus the
outcomes of its I/O, supplied as parameters) to the new state together with
the list of observable I/O events it performed.
-/

/-- A Python value as stored in the `attributes` / `metadata` dicts. -/
inductive Value where
  | num (q : ℚ)
  | str (s : String)
  | bool (b : Bool)
  | none
  | intList (l : List ℤ)
deriving DecidableEq

/-- Python truthiness of a stored value. -/
def Value.truthy : Value → Bool
  | Value.num q => q != 0
  | Value.str s => s != ""
  | Value.bool b => b
  | Value.none => false
  | Value.intList l => !l.isEmpty

/-- Reading a stored value as a number, as Python arithmetic would
(`True`/`False` count as 1/0; strings, `None` and lists raise `TypeError`,
modelled as `Option.none`). -/
def Value.asRat : Value → Option ℚ
  | Value.num q => some q
  | Value.bool b => some (if b then 1 else 0)
  | _ => Option.none

/-- Reading a stored value as a list of ints (raises otherwise). -/
def Value.asIntList : Value → Option (List ℤ)
  | Value.intList l => some l
  | _ => Option.none

/-- Python `x == 0` on a stored value. -/
def pyEqZero : Value → Bool
  | Value.num q => q == 0
  | Value.bool b => !b
  | _ => false

/-- A string-keyed dict; `lookup` takes the most recent binding. -/
abbrev Dict := List (String × Value)

/-- `ControllerExtension._get_value_from_dict`: a missing key reads as `0`. -/
def _get_value_from_dict (d : Dict) (key : String) : Value :=
  match d.lookup key with
  | some v => v
  | Option.none => Value.num 0

/-- `ControllerExtension._set_value_in_dict` (`dict[key] = value`): the new
binding shadows any older one under `lookup`. -/
def _set_value_in_dict (d : Dict) (key : String) (value : Value) : Dict :=
  (key, value) :: d

/-- The state of a `ControllerExtension`: its two dicts. -/
structure ControllerExtension where
  attributes : Dict
  metadata : Dict
deriving DecidableEq

/-- The default `metadata` dict of a fresh `ControllerExtension`. -/
def default_metadata : Dict :=
  [("update_frequency", Value.num 1),
   ("last_exec_time", Value.num 0),
   ("post_data", Value.none)]

namespace ControllerExtension

def set_attribute (s : ControllerExtension) (key : String) (value : Value) :
    ControllerExtension :=
  { s with attributes := _set_value_in_dict s.attributes key value }

def set_metadata (s : ControllerExtension) (key : String) (value : Value) :
    ControllerExtension :=
  { s with metadata := _set_value_in_dict s.metadata key value }

def get_attribute (s : ControllerExtension) (key : String) : Value :=
  _get_value_from_dict s.attributes key

def get_metadata (s : ControllerExtension) (key : String) : Value :=
  _get_value_from_dict s.metadata key

/-- Generic `ControllerExtension.update`: buffer the raw value. -/
def update (s : ControllerExtension) (attr : String) (value : Value) :
    ControllerExtension :=
  s.set_attribute attr value

/-- `ControllerExtension.invoke`, parametrised by the subclass's `execute`
(returning its new state and its Python return value) and by the current
wall-clock time.  Returns `Option.none` when reading the two timing
metadata entries would raise a `TypeError`. -/
def invoke (execute : ControllerExtension → ControllerExtension × Value)
    (now : ℚ) (s : ControllerExtension) :
    Option (ControllerExtension × Value) :=
  match (s.get_metadata "last_exec_time").asRat,
        (s.get_metadata "update_frequency").asRat with
  | some last_post_time, some update_frequency =>
    if now - last_post_time ≤ update_frequency then
      some (s, Value.bool false)
    else
      let r := execute s
      some (r.1.set_metadata "last_exec_time" (Value.num now), r.2)
  | _, _ => Option.none

end ControllerExtension

theorem get_set_metadata_same (s : ControllerExtension) (k : String) (v : Value) :
    (s.set_metadata k v).get_metadata k = v := by
  simp [ControllerExtension.set_metadata, ControllerExtension.get_metadata,
    _set_value_in_dict, _get_value_from_dict, List.lookup]

theorem get_set_metadata_ne (s : ControllerExtension) (k k2 : String) (v : Value)
    (h : k2 ≠ k) : (s.set_metadata k v).get_metadata k2 = s.get_metadata k2 := by
  simp [ControllerExtension.set_metadata, ControllerExtension.get_metadata,
    _set_value_in_dict, _get_value_from_dict, List.lookup,
    beq_eq_false_iff_ne.mpr h]

theorem get_set_attribute_same (s : ControllerExtension) (k : String) (v : Value) :
    (s.set_attribute k v).get_attribute k = v := by
  simp [ControllerExtension.set_attribute, ControllerExtension.get_attribute,
    _set_value_in_dict, _get_value_from_dict, List.lookup]

theorem get_set_attribute_ne (s : ControllerExtension) (k k2 : String) (v : Value)
    (h : k2 ≠ k) : (s.set_attribute k v).get_attribute k2 = s.get_attribute k2 := by
  simp [ControllerExtension.set_attribute, ControllerExtension.get_attribute,
    _set_value_in_dict, _get_value_from_dict, List.lookup,
    beq_eq_false_iff_ne.mpr h]

/-- C1: for every `ControllerExtension` and every call to `invoke()` at time
`now`, `invoke()` is a no-op (execute is not called and `last_exec_time` is
unchanged) unless `now - last_exec_time > update_frequency`; when that strict
inequality holds, `execute()` is called exactly once and `last_exec_time` is
set to `now`. -/
theorem invoke_rate_gate
    (execute : ControllerExtension → ControllerExtension × Value)
    (now last freq : ℚ) (s : ControllerExtension)
    (hl : (s.get_metadata "last_exec_time").asRat = some last)
    (hf : (s.get_metadata "update_frequency").asRat = some freq) :
    (¬ now - last > freq →
      ControllerExtension.invoke execute now s = some (s, Value.bool false)) ∧
    (now - last > freq →
      ControllerExtension.invoke execute now s =
        some ((execute s).1.set_metadata "last_exec_time" (Value.num now),
              (execute s).2)) := by
  unfold ControllerExtension.invoke
  rw [hl, hf]
  dsimp only
  constructor
  · intro h
    rw [if_pos (not_lt.mp h)]
  · intro h
    rw [if_neg (not_le.mpr h)]

/-- Witness for C1: with the default metadata (`last_exec_time = 0`,
`update_frequency = 1`) a call at `now = 2` fires and stamps the time. -/
theorem invoke_rate_gate_witness :
    ControllerExtension.invoke (fun s => (s, Value.str "ran")) 2
      ⟨[], default_metadata⟩ =
      some ((⟨[], default_metadata⟩ : ControllerExtension).set_metadata
              "last_exec_time" (Value.num 2), Value.str "ran") :=
  (invoke_rate_gate (fun s => (s, Value.str "ran")) 2 0 1 ⟨[], default_metadata⟩
    (by decide) (by decide)).2 (by norm_num)

/-!
The body of one `Controller.loop` tick, after the MIDI messages have been
drained.  The target phase iterates over the registered `controls` in
registration order, skipping a target that is already in `ignore_list`
(which is appended to only after a successful `invoke`).  The target phase
has no per-target exception handler: an exception propagates to the loop's
outer handler, aborting the rest of the tick (the loop itself continues).
The feedback phase wraps each `invoke` in its own try/except, so a raising
monitor is logged and the remaining monitors still run.  The `fails` /
`mfails` parameters say which invocations raise.
-/

/-- The target phase: returns the targets whose `invoke` was called, in
order, and whether the phase completed without an exception. -/
def runTargets {α : Type} [DecidableEq α] (fails : α → Bool) :
    List α → List α → List α × Bool
  | [], _ => ([], true)
  | c :: rest, ignore_list =>
    if c ∈ ignore_list then runTargets fails rest ignore_list
    else if fails c then ([c], false)
    else
      let r := runTargets fails rest (ignore_list ++ [c])
      (c :: r.1, r.2)

/-- The feedback phase: returns the monitors whose `invoke` was called, in
order.  A raising monitor is caught in place and is not appended to the
ignore list. -/
def runMonitors {β : Type} [DecidableEq β] (mfails : β → Bool) :
    List β → List β → List β
  | [], _ => []
  | m :: rest, ignore_list =>
    if m ∈ ignore_list then runMonitors mfails rest ignore_list
    else if mfails m then m :: runMonitors mfails rest ignore_list
    else m :: runMonitors mfails rest (ignore_list ++ [m])

/-- One tick: target phase first; the feedback phase runs only if the
target phase raised no exception.  The final `Bool` tells whether the tick
completed (`false` means the outer handler logged the error; the loop then
sleeps and continues with the next tick). -/
def runTick {α β : Type} [DecidableEq α] [DecidableEq β]
    (fails : α → Bool) (mfails : β → Bool)
    (controls : List α) (monitors : List β) : List α × List β × Bool :=
  let r := runTargets fails controls []
  if r.2 then (r.1, runMonitors mfails monitors [], true)
  else (r.1, [], false)

theorem runTargets_ff_mem {α : Type} [DecidableEq α] (l : List α) :
    ∀ (ign : List α) (a : α),
      a ∈ (runTargets (fun _ => false) l ign).1 ↔ a ∈ l ∧ a ∉ ign := by
  induction l with
  | nil => intro ign a; simp [runTargets]
  | cons c rest ih =>
    intro ign a
    by_cases hc : c ∈ ign
    · rw [show runTargets (fun _ => false) (c :: rest) ign =
            runTargets (fun _ => false) rest ign from by simp [runTargets, hc]]
      rw [ih ign a]
      simp only [List.mem_cons]
      constructor
      · exact fun h => ⟨Or.inr h.1, h.2⟩
      · rintro ⟨h1 | h1, h2⟩
        · exact absurd (h1 ▸ hc) h2
        · exact ⟨h1, h2⟩
    · rw [show runTargets (fun _ => false) (c :: rest) ign =
            (c :: (runTargets (fun _ => false) rest (ign ++ [c])).1,
             (runTargets (fun _ => false) rest (ign ++ [c])).2) from by
          simp [runTargets, hc]]
      simp only [List.mem_cons, ih (ign ++ [c]) a, List.mem_append,
        List.mem_singleton]
      rcases eq_or_ne a c with rfl | hac
      · simp [hc]
      · simp [hac]

theorem runTargets_ff_nodup {α : Type} [DecidableEq α] (l : List α) :
    ∀ ign : List α, (runTargets (fun _ => false) l ign).1.Nodup := by
  induction l with
  | nil => intro ign; simp [runTargets]
  | cons c rest ih =>
    intro ign
    by_cases hc : c ∈ ign
    · simpa [runTargets, hc] using ih ign
    · rw [show (runTargets (fun _ => false) (c :: rest) ign).1 =
            c :: (runTargets (fun _ => false) rest (ign ++ [c])).1 from by
          simp [runTargets, hc]]
      refine List.nodup_cons.mpr ⟨?_, ih (ign ++ [c])⟩
      rw [runTargets_ff_mem]
      simp

theorem runTargets_ff_sublist {α : Type} [DecidableEq α] (l : List α) :
    ∀ ign : List α, (runTargets (fun _ => false) l ign).1.Sublist l := by
  induction l with
  | nil => intro ign; simp [runTargets]
  | cons c rest ih =>
    intro ign
    by_cases hc : c ∈ ign
    · rw [show (runTargets (fun _ => false) (c :: rest) ign).1 =
            (runTargets (fun _ => false) rest ign).1 from by
          simp [runTargets, hc]]
      exact (ih ign).cons c
    · rw [show (runTargets (fun _ => false) (c :: rest) ign).1 =
            c :: (runTargets (fun _ => false) rest (ign ++ [c])).1 from by
          simp [runTargets, hc]]
      exact (ih (ign ++ [c])).cons₂ c

/-- C5: in every scheduler tick, each distinct target referenced by a
registered mapping has its `invoke()` called exactly once, in
mapping-registration order (the invocation sequence is a subsequence of the
registration sequence), with none skipped and none invoked twice. -/
theorem loop_invokes_each_target_once {α : Type} [DecidableEq α]
    (controls : List α) :
    (runTargets (fun _ => false) controls []).1.Sublist controls ∧
    (∀ t, t ∈ controls →
      (runTargets (fun _ => false) controls []).1.count t = 1) ∧
    (∀ t, t ∈ (runTargets (fun _ => false) controls []).1 → t ∈ controls) := by
  refine ⟨runTargets_ff_sublist controls [], ?_, ?_⟩
  · intro t ht
    exact List.count_eq_one_of_mem (runTargets_ff_nodup controls [])
      ((runTargets_ff_mem controls [] t).mpr ⟨ht, by simp⟩)
  · intro t ht
    exact ((runTargets_ff_mem controls [] t).mp ht).1

/-- Witness for C5: with the fan-in registration `[0, 1, 0]` the target `0`
is invoked exactly once. -/
theorem loop_invokes_each_target_once_witness :
    (runTargets (fun _ => false) [0, 1, 0] ([] : List ℕ)).1.count 0 = 1 :=
  (loop_invokes_each_target_once [0, 1, 0]).2.1 0 (by decide)

theorem runTargets_all_ok {α : Type} [DecidableEq α] (fails : α → Bool)
    (l : List α) : ∀ ign : List α, (∀ t ∈ l, fails t = false) →
      (runTargets fails l ign).2 = true := by
  induction l with
  | nil => intro ign _; simp [runTargets]
  | cons c rest ih =>
    intro ign h
    have hfc : fails c = false := h c (List.mem_cons_self c rest)
    by_cases hc : c ∈ ign
    · simpa [runTargets, hc] using ih ign fun t ht => h t (List.mem_cons_of_mem c ht)
    · simpa [runTargets, hc, hfc] using
        ih (ign ++ [c]) fun t ht => h t (List.mem_cons_of_mem c ht)

theorem runTargets_fail_false {α : Type} [DecidableEq α] (fails : α → Bool)
    (l : List α) : ∀ ign : List α, (∀ t ∈ ign, fails t = false) →
      (∃ t ∈ l, fails t = true) → (runTargets fails l ign).2 = false := by
  induction l with
  | nil => intro ign _ hex; simp at hex
  | cons c rest ih =>
    intro ign hign hex
    obtain ⟨t, ht, hft⟩ := hex
    by_cases hc : c ∈ ign
    · have htr : t ∈ rest := by
        rcases List.mem_cons.mp ht with rfl | htr
        · exact absurd hft (by simp [hign t hc])
        · exact htr
      simpa [runTargets, hc] using ih ign hign ⟨t, htr, hft⟩
    · by_cases hfc : fails c = true
      · simp [runTargets, hc, hfc]
      · have htr : t ∈ rest := by
          rcases List.mem_cons.mp ht with rfl | htr
          · exact absurd hft hfc
          · exact htr
        have hign2 : ∀ t2 ∈ ign ++ [c], fails t2 = false := by
          intro t2 ht2
          rcases List.mem_append.mp ht2 with h2 | h2
          · exact hign t2 h2
          · rw [List.mem_singleton.mp h2]
            exact Bool.eq_false_iff.mpr hfc
        simpa [runTargets, hc, hfc] using ih (ign ++ [c]) hign2 ⟨t, htr, hft⟩

theorem runMonitors_mem {β : Type} [DecidableEq β] (mfails : β → Bool)
    (l : List β) : ∀ (ign : List β) (m : β), m ∈ l → m ∉ ign →
      m ∈ runMonitors mfails l ign := by
  induction l with
  | nil => intro ign m hm _; simp at hm
  | cons c rest ih =>
    intro ign m hm hmi
    by_cases hc : c ∈ ign
    · have hmr : m ∈ rest := by
        rcases List.mem_cons.mp hm with rfl | hmr
        · exact absurd hc hmi
        · exact hmr
      simpa [runMonitors, hc] using ih ign m hmr hmi
    · rcases List.mem_cons.mp hm with rfl | hmr
      · by_cases hfc : mfails m = true <;> simp [runMonitors, hc, hfc]
      · by_cases hfc : mfails c = true
        · have he : runMonitors mfails (c :: rest) ign =
              c :: runMonitors mfails rest ign := by simp [runMonitors, hc, hfc]
          rw [he]
          exact List.mem_cons_of_mem c (ih ign m hmr hmi)
        · have he : runMonitors mfails (c :: rest) ign =
              c :: runMonitors mfails rest (ign ++ [c]) := by
            simp [runMonitors, hc, hfc]
          rw [he]
          by_cases hmc : m = c
          · rw [hmc]; exact List.mem_cons_self c _
          · refine List.mem_cons_of_mem c (ih (ign ++ [c]) m hmr ?_)
            intro hmic
            rcases List.mem_append.mp hmic with h2 | h2
            · exact hmi h2
            · exact hmc (List.mem_singleton.mp h2)

/-- Counterexample to C6 as stated: with registered targets `[0, 1]` where
target `0`'s `invoke` raises, target `1` and the monitor `5` are NOT invoked
in that tick — the exception reaches the loop's outer handler and the rest
of the tick is skipped, contradicting "the remaining targets and monitors
of that tick are still invoked". -/
theorem tick_abort_counterexample :
    ¬ ((1 : ℕ) ∈ (runTick (fun t => t == 0) (fun _ => false) [0, 1] [(5 : ℕ)]).1 ∧
       (5 : ℕ) ∈ (runTick (fun t => t == 0) (fun _ => false) [0, 1] [(5 : ℕ)]).2.1) := by
  decide

/-- C6 (amended): an exception raised by a single monitor's `invoke` is
caught per-monitor, so when the target phase completes every monitor is
still invoked and the tick completes; an exception raised by a single
target's `invoke` is caught by the loop's outer handler — the loop does not
exit (the tick function still yields a state) — but the remaining targets
and all monitors of that tick are skipped. -/
theorem tick_failure_isolation {α β : Type} [DecidableEq α] [DecidableEq β]
    (fails : α → Bool) (mfails : β → Bool)
    (controls : List α) (monitors : List β) :
    ((∀ t ∈ controls, fails t = false) →
      (runTick fails mfails controls monitors).2.2 = true ∧
      ∀ m ∈ monitors, m ∈ (runTick fails mfails controls monitors).2.1) ∧
    ((∃ t ∈ controls, fails t = true) →
      (runTick fails mfails controls monitors).2.1 = [] ∧
      (runTick fails mfails controls monitors).2.2 = false) := by
  constructor
  · intro h
    have hs := runTargets_all_ok fails controls [] h
    refine ⟨by simp [runTick, hs], ?_⟩
    intro m hm
    simpa [runTick, hs] using runMonitors_mem mfails monitors [] m hm (by simp)
  · intro hex
    have hs := runTargets_fail_false fails controls [] (by simp) hex
    simp [runTick, hs]

/-- Witness for C6 (amended): a raising monitor (`5`) is still invoked
alongside its successor when no target fails, and a raising target empties
the monitor phase. -/
theorem tick_failure_isolation_witness :
    (5 : ℕ) ∈ (runTick (fun (_ : ℕ) => false) (fun m => m == 5) [0, 1] [5, 6]).2.1 ∧
    (runTick (fun t => t == 0) (fun (_ : ℕ) => false) [0, 1] [(5 : ℕ)]).2.1 = [] :=
  ⟨((tick_failure_isolation (fun _ => false) (fun m => m == 5) [0, 1] [5, 6]).1
      (by decide)).2 5 (by decide),
   ((tick_failure_isolation (fun t => t == 0) (fun _ => false) [0, 1] [5]).2
      (by decide)).1⟩

/-- The JSON payload of a Home Assistant service call (`data` dict): only
the keys the source ever writes are modelled, absent keys as `Option.none`. -/
structure PostRequest where
  entity_id : String
  brightness : Option ℤ
  transition : Option Value
  rgb_color : Option (List ℤ)
  hs_color : Option (List ℤ)
deriving DecidableEq

/-- One `Client.post_data(data, domain, service)` call. -/
structure HAReq where
  data : PostRequest
  domain : String
  service : String
deriving DecidableEq

/-- The toggle request `{'entity_id': ...}` posted to `switch/toggle`. -/
def toggle_request (entity_id : String) : HAReq :=
  ⟨⟨entity_id, Option.none, Option.none, Option.none, Option.none⟩,
   "switch", "toggle"⟩

/-- Shared body of `Switch.update` and `ToggleSwitch.update` (the two are
textually identical in the source up to the name of the stored level,
`button_state` vs `last_note_state`, here the `key` parameter).  Returns the
new state and whether the rising-edge branch set `post_flag` in this call.
`x or 0` is Python truthiness-based choice; the stored level is `1` for a
nonzero raw value, else `0`; `super().update` then buffers the raw value. -/
def edge_update (key attr : String) (value : ℚ) (s : ControllerExtension) :
    ControllerExtension × Bool :=
  let raw := s.get_attribute key
  let last_level := if raw.truthy then raw else Value.num 0
  let level : ℚ := if value > 0 then 1 else 0
  let fired := pyEqZero last_level && decide (level = 1)
  let s1 := if fired then s.set_metadata "post_flag" (Value.bool true) else s
  let s2 := s1.set_attribute key (Value.num level)
  (s2.update attr (Value.num value), fired)

def Switch.update : String → ℚ → ControllerExtension → ControllerExtension × Bool :=
  edge_update "button_state"

def ToggleSwitch.update : String → ℚ → ControllerExtension → ControllerExtension × Bool :=
  edge_update "last_note_state"

/-- Folding a run of raw input values through `update`, counting how many
calls set the post flag. -/
def edge_runUpdates (key attr : String) (vs : List ℚ) (s : ControllerExtension) :
    ControllerExtension × ℕ :=
  match vs with
  | [] => (s, 0)
  | v :: rest =>
    let r := edge_update key attr v s
    let r2 := edge_runUpdates key attr rest r.1
    (r2.1, (if r.2 then 1 else 0) + r2.2)

def Switch.runUpdates : String → List ℚ → ControllerExtension → ControllerExtension × ℕ :=
  edge_runUpdates "button_state"

def ToggleSwitch.runUpdates : String → List ℚ → ControllerExtension → ControllerExtension × ℕ :=
  edge_runUpdates "last_note_state"

/-- How `update` reads the stored level: `(get(key) or 0) == 0`. -/
def readsAsZero (s : ControllerExtension) (key : String) : Bool :=
  pyEqZero (if (s.get_attribute key).truthy then s.get_attribute key
            else Value.num 0)

theorem edge_update_fired (key attr : String) (value : ℚ) (s : ControllerExtension) :
    (edge_update key attr value s).2 =
      (readsAsZero s key && decide (value > 0)) := by
  unfold edge_update readsAsZero
  by_cases hv : value > 0
  · simp [hv]
  · simp [hv]

theorem edge_update_level_pos (key attr : String) (value : ℚ)
    (s : ControllerExtension) (hv : value > 0) :
    readsAsZero (edge_update key attr value s).1 key = false := by
  unfold edge_update ControllerExtension.update
  rcases eq_or_ne attr key with rfl | hne
  · simp only [readsAsZero, get_set_attribute_same]
    have hv0 : value ≠ 0 := ne_of_gt hv
    simp [Value.truthy, pyEqZero, hv0]
  · simp only [readsAsZero]
    rw [get_set_attribute_ne _ _ _ _ (Ne.symm hne), get_set_attribute_same]
    simp [Value.truthy, pyEqZero, hv]

theorem edge_runUpdates_no_rearm (key attr : String) (vs : List ℚ) :
    ∀ s : ControllerExtension, readsAsZero s key = false →
      (∀ v ∈ vs, v > 0) → (edge_runUpdates key attr vs s).2 = 0 := by
  induction vs with
  | nil => intro s _ _; rfl
  | cons v rest ih =>
    intro s h0 hpos
    have hf : (edge_update key attr v s).2 = false := by
      rw [edge_update_fired, h0]; rfl
    have hnext := edge_update_level_pos key attr v s
      (hpos v (List.mem_cons_self v rest))
    unfold edge_runUpdates
    dsimp only
    rw [hf]
    simpa using ih (edge_update key attr v s).1 hnext
      fun v2 hv2 => hpos v2 (List.mem_cons_of_mem v hv2)

theorem edge_runUpdates_once (key attr : String) (vs : List ℚ)
    (s : ControllerExtension) (h0 : readsAsZero s key = true)
    (hne : vs ≠ []) (hpos : ∀ v ∈ vs, v > 0) :
    (edge_runUpdates key attr vs s).2 = 1 := by
  match vs, hne with
  | v :: rest, _ =>
    have hv : v > 0 := hpos v (List.mem_cons_self v rest)
    have hf : (edge_update key attr v s).2 = true := by
      rw [edge_update_fired, h0]
      simp [hv]
    unfold edge_runUpdates
    dsimp only
    rw [hf]
    have := edge_runUpdates_no_rearm key attr rest
      (edge_update key attr v s).1
      (edge_update_level_pos key attr v s hv)
      fun v2 hv2 => hpos v2 (List.mem_cons_of_mem v hv2)
    simpa using this

/-- C7: for every `Switch` and every `ToggleSwitch`, over any run of raw
values that are all nonzero (no intervening 0) starting from a state whose
stored level reads as 0, `update()` sets the post-pending flag exactly once
— at the first press — and never re-arms it within the run. -/
theorem switch_rising_edge_once :
    (∀ (attr : String) (vs : List ℚ) (s : ControllerExtension),
      readsAsZero s "button_state" = true → vs ≠ [] → (∀ v ∈ vs, v > 0) →
      (Switch.runUpdates attr vs s).2 = 1) ∧
    (∀ (attr : String) (vs : List ℚ) (s : ControllerExtension),
      readsAsZero s "last_note_state" = true → vs ≠ [] → (∀ v ∈ vs, v > 0) →
      (ToggleSwitch.runUpdates attr vs s).2 = 1) :=
  ⟨fun attr vs s h0 hne hpos => edge_runUpdates_once "button_state" attr vs s h0 hne hpos,
   fun attr vs s h0 hne hpos => edge_runUpdates_once "last_note_state" attr vs s h0 hne hpos⟩

/-- Witness for C7: three consecutive full-velocity values arm the flag
exactly once, for both switch variants. -/
theorem switch_rising_edge_once_witness :
    (Switch.runUpdates "value" [127, 127, 127]
      ⟨[("button_state", Value.num 0)], default_metadata⟩).2 = 1 ∧
    (ToggleSwitch.runUpdates "value" [127, 127, 127]
      ⟨[("last_note_state", Value.num 0)], default_metadata⟩).2 = 1 :=
  ⟨switch_rising_edge_once.1 "value" [127, 127, 127]
      ⟨[("button_state", Value.num 0)], default_metadata⟩
      (by decide) (by decide) (by decide),
   switch_rising_edge_once.2 "value" [127, 127, 127]
      ⟨[("last_note_state", Value.num 0)], default_metadata⟩
      (by decide) (by decide) (by decide)⟩

/-- Shared body of `Switch.execute` and `ToggleSwitch.execute` (textually
identical in the source): when `post_flag` is truthy, post one
`switch/toggle` request for the entity and clear the flag whether or not
the post succeeded, returning `not success`; otherwise do nothing. -/
def toggle_execute (entity_id : String) (post_ok : Bool)
    (s : ControllerExtension) : ControllerExtension × List HAReq × Bool :=
  if (s.get_metadata "post_flag").truthy then
    (s.set_metadata "post_flag" (Value.bool false),
     [toggle_request entity_id], !post_ok)
  else (s, [], false)

def Switch.execute : String → Bool → ControllerExtension →
    ControllerExtension × List HAReq × Bool :=
  toggle_execute

def ToggleSwitch.execute : String → Bool → ControllerExtension →
    ControllerExtension × List HAReq × Bool :=
  toggle_execute

/-- C8: for every `Switch`/`ToggleSwitch` `execute()` call with the
post-pending flag set, exactly one toggle request for the entity is issued
and the flag is cleared after the attempt whether the request succeeded or
failed; a failed toggle is not retried on the next tick (a second `execute`
issues nothing). -/
theorem switch_execute_fire_and_forget (entity_id : String)
    (post_ok post_ok2 : Bool) (s : ControllerExtension)
    (h : (s.get_metadata "post_flag").truthy = true) :
    Switch.execute entity_id post_ok s =
      (s.set_metadata "post_flag" (Value.bool false),
       [toggle_request entity_id], !post_ok) ∧
    ToggleSwitch.execute entity_id post_ok s =
      (s.set_metadata "post_flag" (Value.bool false),
       [toggle_request entity_id], !post_ok) ∧
    Switch.execute entity_id post_ok2 (Switch.execute entity_id post_ok s).1 =
      ((Switch.execute entity_id post_ok s).1, [], false) ∧
    ToggleSwitch.execute entity_id post_ok2
        (ToggleSwitch.execute entity_id post_ok s).1 =
      ((ToggleSwitch.execute entity_id post_ok s).1, [], false) := by
  have h1 : toggle_execute entity_id post_ok s =
      (s.set_metadata "post_flag" (Value.bool false),
       [toggle_request entity_id], !post_ok) := by
    unfold toggle_execute
    rw [h]
    simp
  have hcleared : ((toggle_execute entity_id post_ok s).1.get_metadata
      "post_flag").truthy = false := by
    rw [h1, get_set_metadata_same]
    rfl
  have h2 : ∀ t : ControllerExtension, (t.get_metadata "post_flag").truthy = false →
      toggle_execute entity_id post_ok2 t = (t, [], false) := by
    intro t ht
    unfold toggle_execute
    rw [ht]
    simp
  exact ⟨h1, h1, h2 _ hcleared, h2 _ hcleared⟩

/-- Witness for C8: a pending toggle whose post FAILS (`post_ok = false`)
still clears the flag and is not re-issued on the next execute. -/
theorem switch_execute_fire_and_forget_witness :
    Switch.execute "switch.desk" false
      ⟨[], [("post_flag", Value.bool true)]⟩ =
      ((⟨[], [("post_flag", Value.bool true)]⟩ : ControllerExtension).set_metadata
         "post_flag" (Value.bool false),
       [toggle_request "switch.desk"], true) ∧
    Switch.execute "switch.desk" true
      (Switch.execute "switch.desk" false
        ⟨[], [("post_flag", Value.bool true)]⟩).1 =
      ((Switch.execute "switch.desk" false
          ⟨[], [("post_flag", Value.bool true)]⟩).1, [], false) := by
  have h := switch_execute_fire_and_forget "switch.desk" false true
    ⟨[], [("post_flag", Value.bool true)]⟩ (by decide)
  exact ⟨h.1, h.2.2.1⟩

/-- Modelled from the spec: the helper `translate` is imported from
`pymidicontroller/extensions/common.py`, which is not among the provided
sources.  The spec describes it as the fixed linear rescale from
`[leftMin, leftMax]` to `[rightMin, rightMax]` with `translate 0 .. = 0`
and `translate 127 .. = upperBound`, monotone in the value. -/
def common.translate (value leftMin leftMax rightMin rightMax : ℚ) : ℚ :=
  rightMin + (value - leftMin) * (rightMax - rightMin) / (leftMax - leftMin)

/-- Python 3 `round` to the nearest integer, ties to even. -/
def pyRound (q : ℚ) : ℤ :=
  if q - ⌊q⌋ < 1/2 then ⌊q⌋
  else if q - ⌊q⌋ > 1/2 then ⌊q⌋ + 1
  else if ⌊q⌋ % 2 = 0 then ⌊q⌋ else ⌊q⌋ + 1

/-- `Light.execute`: when the dirty flag `post_flag` is truthy, build
one `light/turn_on` payload from the buffered channels (brightness always;
`hs_color` or `rgb_color` per `colour_mode`) and post it once, storing
`post_flag := not success`.  `Option.none` models the `AttributeError` of
the undefined `first_run` (reachable only if the `init` flag were falsy)
and `TypeError`s from non-numeric channel values. -/
def Light.execute (entity_id : String) (post_ok : Bool)
    (s : ControllerExtension) :
    Option (ControllerExtension × List HAReq × Bool) :=
  if !(s.get_metadata "init").truthy then Option.none
  else if (s.get_metadata "post_flag").truthy then
    match (s.get_attribute "brightness_channel").asRat with
    | Option.none => Option.none
    | some bch =>
      let transition := s.get_metadata "update_frequency"
      let brightness := pyRound (common.translate bch 0 127 0 255)
      let colour_mode := s.get_attribute "colour_mode"
      let data : Option PostRequest :=
        if colour_mode = Value.str "rgb" then
          match (s.get_attribute "red_channel").asRat,
                (s.get_attribute "green_channel").asRat,
                (s.get_attribute "blue_channel").asRat with
          | some r, some g, some b =>
            some ⟨entity_id, some brightness, some transition,
                  some [pyRound (common.translate r 0 127 0 255),
                        pyRound (common.translate g 0 127 0 255),
                        pyRound (common.translate b 0 127 0 255)], Option.none⟩
          | _, _, _ => Option.none
        else if colour_mode = Value.str "hs" then
          match (s.get_attribute "hue_channel").asRat,
                (s.get_attribute "saturation_channel").asRat with
          | some hu, some sa =>
            some ⟨entity_id, some brightness, some transition, Option.none,
                  some [pyRound (common.translate hu 0 127 0 360),
                        pyRound (common.translate sa 0 127 0 100)]⟩
          | _, _ => Option.none
        else
          some ⟨entity_id, some brightness, some transition,
                Option.none, Option.none⟩
      match data with
      | Option.none => Option.none
      | some d =>
        some (s.set_metadata "post_flag" (Value.bool (!post_ok)),
              [⟨d, "light", "turn_on"⟩], !post_ok)
  else some (s, [], false)

/-- The state of a `Light` after `__post_init__` with a press pending:
`colour_mode` hs, `init` set, `post_flag` armed; no channel ever received. -/
def light_test_state : ControllerExtension :=
  ⟨[("colour_mode", Value.str "hs")],
   [("init", Value.bool true), ("post_flag", Value.bool true),
    ("update_frequency", Value.num 1)]⟩

/-- C9: `Light.execute` is a no-op when `post_flag` is not set; when it is
set, exactly one `SetState` call is issued, the flag is cleared iff the
send succeeds, and on failure the flag stays set (so the next eligible tick
retries from the current buffered attributes). -/
theorem light_execute_retry (entity_id : String) (post_ok : Bool)
    (s : ControllerExtension)
    (hinit : (s.get_metadata "init").truthy = true) :
    ((s.get_metadata "post_flag").truthy = false →
      Light.execute entity_id post_ok s = some (s, [], false)) ∧
    (∀ (s2 : ControllerExtension) (reqs : List HAReq) (ret : Bool),
      (s.get_metadata "post_flag").truthy = true →
      Light.execute entity_id post_ok s = some (s2, reqs, ret) →
      reqs.length = 1 ∧
      s2.get_metadata "post_flag" = Value.bool (!post_ok) ∧
      ((s2.get_metadata "post_flag").truthy = true ↔ post_ok = false)) := by
  constructor
  · intro hp
    simp [Light.execute, hinit, hp]
  · intro s2 reqs ret hp hex
    unfold Light.execute at hex
    rw [hinit, hp] at hex
    simp only [Bool.not_true, Bool.false_eq_true, if_false, if_true] at hex
    split at hex
    · exact absurd hex (by simp)
    · split at hex
      · exact absurd hex (by simp)
      · simp only [Option.some.injEq, Prod.mk.injEq] at hex
        obtain ⟨h1, h2, h3⟩ := hex
        subst h1
        subst h2
        refine ⟨rfl, get_set_metadata_same s "post_flag" _, ?_⟩
        rw [get_set_metadata_same]
        cases post_ok <;> simp [Value.truthy]

/-- Witness for C9: a dirty hs-mode light whose post fails emits exactly
one request and keeps its dirty flag set. -/
theorem light_execute_retry_witness :
    ∃ (s2 : ControllerExtension) (reqs : List HAReq),
      Light.execute "light.desk" false light_test_state = some (s2, reqs, true) ∧
      reqs.length = 1 ∧ (s2.get_metadata "post_flag").truthy = true := by
  have h := (light_execute_retry "light.desk" false light_test_state
    (by decide)).2
  refine ⟨_, _, rfl, ?_⟩
  have h2 := h _ _ _ (by decide) rfl
  exact ⟨h2.1, h2.2.2.mpr rfl⟩


theorem light_execute_hs (entity_id : String) (post_ok : Bool)
    (s : ControllerExtension) (b hu sa : ℚ)
    (hinit : (s.get_metadata "init").truthy = true)
    (hp : (s.get_metadata "post_flag").truthy = true)
    (hmode : s.get_attribute "colour_mode" = Value.str "hs")
    (hb : (s.get_attribute "brightness_channel").asRat = some b)
    (hh : (s.get_attribute "hue_channel").asRat = some hu)
    (hs2 : (s.get_attribute "saturation_channel").asRat = some sa) :
    Light.execute entity_id post_ok s =
      some (s.set_metadata "post_flag" (Value.bool (!post_ok)),
        [⟨⟨entity_id, some (pyRound (common.translate b 0 127 0 255)),
           some (s.get_metadata "update_frequency"), Option.none,
           some [pyRound (common.translate hu 0 127 0 360),
                 pyRound (common.translate sa 0 127 0 100)]⟩,
          "light", "turn_on"⟩], !post_ok) := by
  unfold Light.execute
  rw [hinit, hp, hb, hmode, hh, hs2]
  simp

/-- C10: reading an attribute or metadata key that was never set returns 0
rather than failing; consequently a `Light` whose `execute()` fires after
only some channels received input computes the never-received channels from
raw value 0 — e.g. an hs-mode light whose `brightness_channel` was never
set posts brightness `round(translate(0,0,127,0,255)) = 0` even though only
the hue knob has moved. -/
theorem missing_key_reads_zero :
    (∀ (d : Dict) (key : String), d.lookup key = Option.none →
      _get_value_from_dict d key = Value.num 0) ∧
    (∀ (entity_id : String) (post_ok : Bool) (s : ControllerExtension)
        (hu sa : ℚ),
      (s.get_metadata "init").truthy = true →
      (s.get_metadata "post_flag").truthy = true →
      s.attributes.lookup "brightness_channel" = Option.none →
      s.get_attribute "colour_mode" = Value.str "hs" →
      (s.get_attribute "hue_channel").asRat = some hu →
      (s.get_attribute "saturation_channel").asRat = some sa →
      ∃ d : PostRequest,
        Light.execute entity_id post_ok s =
          some (s.set_metadata "post_flag" (Value.bool (!post_ok)),
                [⟨d, "light", "turn_on"⟩], !post_ok) ∧
        d.brightness = some 0) := by
  constructor
  · intro d key hk
    unfold _get_value_from_dict
    rw [hk]
  · intro entity_id post_ok s hu sa hinit hp hbmiss hmode hh hs2
    have hb0 : (s.get_attribute "brightness_channel").asRat = some 0 := by
      unfold ControllerExtension.get_attribute _get_value_from_dict
      rw [hbmiss]
      rfl
    have hz : pyRound (common.translate 0 0 127 0 255) = 0 := by
      have ht : common.translate 0 0 127 0 255 = 0 := by
        unfold common.translate
        norm_num
      rw [ht]
      unfold pyRound
      norm_num
    refine ⟨⟨entity_id, some (pyRound (common.translate 0 0 127 0 255)),
             some (s.get_metadata "update_frequency"), Option.none,
             some [pyRound (common.translate hu 0 127 0 360),
                   pyRound (common.translate sa 0 127 0 100)]⟩, ?_, ?_⟩
    · exact light_execute_hs entity_id post_ok s 0 hu sa hinit hp hmode hb0 hh hs2
    · simpa using hz

/-- Witness for C10: a never-set key reads as 0, and the hs-mode light with
no brightness input ever received posts brightness 0. -/
theorem missing_key_reads_zero_witness :
    _get_value_from_dict [("colour_mode", Value.str "hs")] "brightness_channel" =
      Value.num 0 ∧
    ∃ d : PostRequest,
      Light.execute "light.desk" true light_test_state =
        some (light_test_state.set_metadata "post_flag" (Value.bool false),
              [⟨d, "light", "turn_on"⟩], false) ∧
      d.brightness = some 0 :=
  ⟨missing_key_reads_zero.1 [("colour_mode", Value.str "hs")]
     "brightness_channel" (by decide),
   missing_key_reads_zero.2 "light.desk" true light_test_state 0 0
     (by decide) (by decide) (by decide) (by decide) (by decide) (by decide)⟩

/-- The translated RGB triple a `CyncLight` computes from its channels. -/
def cync_color (r g b : ℚ) : List ℤ :=
  [pyRound (common.translate r 0 127 0 255),
   pyRound (common.translate g 0 127 0 255),
   pyRound (common.translate b 0 127 0 255)]

/-- The color-only payload (`rgb_color`, NO brightness key). -/
def cync_color_req (entity_id : String) (c : List ℤ) : HAReq :=
  ⟨⟨entity_id, Option.none, Option.none, some c, Option.none⟩,
   "light", "turn_on"⟩

/-- The brightness-only payload (`brightness`, NO color key). -/
def cync_brightness_req (entity_id : String) (b : ℤ) : HAReq :=
  ⟨⟨entity_id, some b, Option.none, Option.none, Option.none⟩,
   "light", "turn_on"⟩

/-- `CyncLight.execute`: sends color and brightness separately.  If the
translated color differs from `last_color`, post a color-only payload and
on success record it (the 100 ms protocol delay has no state effect and is
omitted); then, only if everything so far succeeded and the translated
brightness differs from `last_brightness`, post a brightness-only payload,
recording it on success; finally `post_flag := not success`. -/
def CyncLight.execute (entity_id : String) (color_ok bright_ok : Bool)
    (s : ControllerExtension) :
    Option (ControllerExtension × List HAReq × Bool) :=
  if !(s.get_metadata "init").truthy then Option.none
  else if !(s.get_metadata "post_flag").truthy then some (s, [], false)
  else
    match (s.get_attribute "brightness_channel").asRat,
          (s.get_attribute "red_channel").asRat,
          (s.get_attribute "green_channel").asRat,
          (s.get_attribute "blue_channel").asRat,
          (s.get_metadata "last_brightness").asRat,
          (s.get_metadata "last_color").asIntList with
    | some bch, some r, some g, some b, some last_brightness, some last_color =>
      let current_brightness := pyRound (common.translate bch 0 127 0 255)
      let current_color := cync_color r g b
      let step1 : ControllerExtension × List HAReq × Bool :=
        if current_color ≠ last_color then
          if color_ok then
            (s.set_metadata "last_color" (Value.intList current_color),
             [cync_color_req entity_id current_color], true)
          else
            (s, [cync_color_req entity_id current_color], false)
        else (s, [], true)
      let step2 : ControllerExtension × List HAReq × Bool :=
        if (current_brightness : ℚ) ≠ last_brightness ∧ step1.2.2 = true then
          if bright_ok then
            (step1.1.set_metadata "last_brightness"
               (Value.num (current_brightness : ℚ)),
             step1.2.1 ++ [cync_brightness_req entity_id current_brightness],
             true)
          else
            (step1.1,
             step1.2.1 ++ [cync_brightness_req entity_id current_brightness],
             false)
        else step1
      some (step2.1.set_metadata "post_flag" (Value.bool (!step2.2.2)),
            step2.2.1, !step2.2.2)
    | _, _, _, _, _, _ => Option.none

theorem common_translate_zero (ub : ℚ) : common.translate 0 0 127 0 ub = 0 := by
  unfold common.translate
  ring

theorem pyRound_zero : pyRound 0 = 0 := by
  unfold pyRound
  norm_num

/-- C4: for a `CyncLight` execute cycle where both the translated color and
the translated brightness differ from the last sent values, if the
color-only send succeeds but the brightness-only send fails, then
`post_flag` remains set, `last_color` is updated to the sent color (not
re-sent next cycle) and `last_brightness` is unchanged (still pending);
and in general the dirty flag clears iff every needed sub-send succeeded. -/
theorem cync_partial_failure (entity_id : String) (color_ok bright_ok : Bool)
    (s : ControllerExtension) (bch r g b last_brightness : ℚ)
    (last_color : List ℤ)
    (hinit : (s.get_metadata "init").truthy = true)
    (hp : (s.get_metadata "post_flag").truthy = true)
    (hb : (s.get_attribute "brightness_channel").asRat = some bch)
    (hr : (s.get_attribute "red_channel").asRat = some r)
    (hg : (s.get_attribute "green_channel").asRat = some g)
    (hbl : (s.get_attribute "blue_channel").asRat = some b)
    (hlb : (s.get_metadata "last_brightness").asRat = some last_brightness)
    (hlc : (s.get_metadata "last_color").asIntList = some last_color)
    (hcdiff : cync_color r g b ≠ last_color)
    (hbdiff : ((pyRound (common.translate bch 0 127 0 255) : ℤ) : ℚ) ≠ last_brightness) :
    (color_ok = true → bright_ok = false →
      CyncLight.execute entity_id color_ok bright_ok s =
        some ((s.set_metadata "last_color"
                 (Value.intList (cync_color r g b))).set_metadata
                "post_flag" (Value.bool true),
              [cync_color_req entity_id (cync_color r g b),
               cync_brightness_req entity_id
                 (pyRound (common.translate bch 0 127 0 255))],
              true) ∧
      ((s.set_metadata "last_color"
          (Value.intList (cync_color r g b))).set_metadata
         "post_flag" (Value.bool true)).get_metadata "last_brightness" =
        s.get_metadata "last_brightness") ∧
    (∀ (s2 : ControllerExtension) (reqs : List HAReq) (ret : Bool),
      CyncLight.execute entity_id color_ok bright_ok s = some (s2, reqs, ret) →
      ((s2.get_metadata "post_flag").truthy = false ↔
        color_ok = true ∧ bright_ok = true)) := by
  have key : CyncLight.execute entity_id color_ok bright_ok s =
      some (if color_ok then
              (if bright_ok then
                (((s.set_metadata "last_color"
                     (Value.intList (cync_color r g b))).set_metadata
                    "last_brightness"
                    (Value.num ((pyRound (common.translate bch 0 127 0 255) : ℤ) : ℚ))).set_metadata
                   "post_flag" (Value.bool false),
                 [cync_color_req entity_id (cync_color r g b),
                  cync_brightness_req entity_id
                    (pyRound (common.translate bch 0 127 0 255))], false)
              else
                ((s.set_metadata "last_color"
                    (Value.intList (cync_color r g b))).set_metadata
                   "post_flag" (Value.bool true),
                 [cync_color_req entity_id (cync_color r g b),
                  cync_brightness_req entity_id
                    (pyRound (common.translate bch 0 127 0 255))], true))
            else
              (s.set_metadata "post_flag" (Value.bool true),
               [cync_color_req entity_id (cync_color r g b)], true)) := by
    unfold CyncLight.execute
    rw [hinit, hp, hb, hr, hg, hbl, hlb, hlc]
    dsimp only
    rw [if_pos hcdiff]
    cases color_ok <;> cases bright_ok <;> simp [hbdiff]
  constructor
  · intro hc hbo
    subst hc
    subst hbo
    refine ⟨by simpa using key, ?_⟩
    rw [get_set_metadata_ne _ _ _ _ (by decide),
        get_set_metadata_ne _ _ _ _ (by decide)]
  · intro s2 reqs ret hex
    rw [key] at hex
    cases color_ok <;> cases bright_ok <;>
      simp only [if_true, if_false, Bool.false_eq_true, Option.some.injEq,
        Prod.mk.injEq] at hex <;>
      obtain ⟨h1, h2, h3⟩ := hex <;>
      subst h1 <;>
      rw [get_set_metadata_same] <;>
      simp [Value.truthy]

/-- The state of a fresh `CyncLight` with a press pending: rgb mode,
`last_brightness = 255`, `last_color = [255,255,255]` (the `__post_init__`
defaults), no channel input ever received (all channels read 0). -/
def cync_test_state : ControllerExtension :=
  ⟨[("colour_mode", Value.str "rgb")],
   [("init", Value.bool true), ("post_flag", Value.bool true),
    ("update_frequency", Value.num 1),
    ("last_brightness", Value.num 255),
    ("last_color", Value.intList [255, 255, 255])]⟩

/-- Witness for C4: color send succeeds, brightness send fails — both
requests go out once, the flag stays set, `last_color` is recorded and
`last_brightness` is untouched. -/
theorem cync_partial_failure_witness :
    CyncLight.execute "light.cync" true false cync_test_state =
      some ((cync_test_state.set_metadata "last_color"
               (Value.intList (cync_color 0 0 0))).set_metadata
              "post_flag" (Value.bool true),
            [cync_color_req "light.cync" (cync_color 0 0 0),
             cync_brightness_req "light.cync"
               (pyRound (common.translate 0 0 127 0 255))],
            true) ∧
    ((cync_test_state.set_metadata "last_color"
        (Value.intList (cync_color 0 0 0))).set_metadata
       "post_flag" (Value.bool true)).get_metadata "last_brightness" =
      cync_test_state.get_metadata "last_brightness" :=
  (cync_partial_failure "light.cync" true false cync_test_state 0 0 0 0 255
    [255, 255, 255]
    (by decide) (by decide) (by decide) (by decide) (by decide) (by decide)
    (by decide) (by decide)
    (by simp [cync_color, common_translate_zero, pyRound_zero])
    (by rw [common_translate_zero, pyRound_zero]; norm_num)).1 rfl rfl

/-- An observable I/O event of the feedback monitor: an LED signal
emission (the `_set_led_color` call; a no-op at the sink when no output
device exists) or a remote state fetch (`client.get_state`). -/
inductive Ev where
  | led (color : String)
  | fetch (entity : String)
deriving DecidableEq

/-- `InstantFeedbackLight._set_led_color`: attempt the MIDI emission;
`led_ok` says whether the output device exists and the send succeeded
(failures are swallowed and leave `current_led_color` unrecorded). -/
def _set_led_color (led_ok : Bool) (color : String)
    (s : ControllerExtension) : ControllerExtension × List Ev :=
  ((if led_ok then s.set_metadata "current_led_color" (Value.str color)
    else s),
   [Ev.led color])

/-- `InstantFeedbackLight.button_pressed`: FIRST set the LED to amber,
SECOND mark the pending change and stamp `pending_start_time := now`,
THIRD fetch the current remote state (used for logging only; its outcome
`_fetch_res` does not affect the state). -/
def InstantFeedbackLight.button_pressed (entity_id : String) (now : ℚ)
    (led_ok : Bool) (_fetch_res : Option String) (s : ControllerExtension) :
    ControllerExtension × List Ev :=
  let r1 := _set_led_color led_ok "amber" s
  let s2 := r1.1.set_metadata "pending_change" (Value.bool true)
  let s3 := s2.set_metadata "pending_start_time" (Value.num now)
  (s3, r1.2 ++ [Ev.fetch entity_id])

/-- `InstantFeedbackLight.execute`: gate on `last_check_time` (interval
0.05 while pending, else `update_frequency`); fetch the remote state
(`fetch_res`, `Option.none` = failed fetch, reported as Python `None`);
then either confirm/notice an external change, time out a pending change
after 3 s, set the initial state, or do nothing; always stamp
`last_check_time := now` after the fetch. -/
def InstantFeedbackLight.execute (entity_id : String) (now : ℚ)
    (led_ok : Bool) (fetch_res : Option String) (s : ControllerExtension) :
    Option (ControllerExtension × List Ev) :=
  match (s.get_metadata "last_check_time").asRat with
  | Option.none => Option.none
  | some last_check =>
    match (if (s.get_metadata "pending_change").truthy then some (1/20 : ℚ)
           else (s.get_metadata "update_frequency").asRat) with
    | Option.none => Option.none
    | some check_interval =>
      if now - last_check < check_interval then some (s, [])
      else
        let current : Value := match fetch_res with
          | some st => Value.str st
          | Option.none => Value.none
        let last := s.get_metadata "last_ha_state"
        let pending := (s.get_metadata "pending_change").truthy
        if current ≠ last ∧ fetch_res ≠ Option.none then
          let r := _set_led_color led_ok
            (if current = Value.str "on" then "green" else "red") s
          let s2 := if pending
            then r.1.set_metadata "pending_change" (Value.bool false)
            else r.1
          let s3 := s2.set_metadata "last_ha_state" current
          some (s3.set_metadata "last_check_time" (Value.num now),
                Ev.fetch entity_id :: r.2)
        else if pending then
          match (s.get_metadata "pending_start_time").asRat with
          | Option.none => Option.none
          | some pending_start =>
            if now - pending_start > 3 then
              let r := _set_led_color led_ok
                (if current = Value.str "on" then "green" else "red") s
              let s2 := r.1.set_metadata "pending_change" (Value.bool false)
              some (s2.set_metadata "last_check_time" (Value.num now),
                    Ev.fetch entity_id :: r.2)
            else
              some (s.set_metadata "last_check_time" (Value.num now),
                    [Ev.fetch entity_id])
        else if last = Value.none ∧ fetch_res ≠ Option.none then
          let r := _set_led_color led_ok
            (if current = Value.str "on" then "green" else "red") s
          let s2 := r.1.set_metadata "last_ha_state" current
          some (s2.set_metadata "last_check_time" (Value.num now),
                Ev.fetch entity_id :: r.2)
        else
          some (s.set_metadata "last_check_time" (Value.num now),
                [Ev.fetch entity_id])

/-- C2: every `button_pressed` call emits the amber (Transitioning) signal
BEFORE the remote state fetch it performs, for every fetch outcome and
every LED-sink outcome; afterwards `pending_change` is true and
`pending_start_time` is the time of the press. -/
theorem button_pressed_transitioning_first (entity_id : String) (now : ℚ)
    (led_ok : Bool) (fetch_res : Option String) (s : ControllerExtension) :
    (InstantFeedbackLight.button_pressed entity_id now led_ok fetch_res s).2 =
      [Ev.led "amber", Ev.fetch entity_id] ∧
    ((InstantFeedbackLight.button_pressed entity_id now led_ok fetch_res
        s).1.get_metadata "pending_change") = Value.bool true ∧
    ((InstantFeedbackLight.button_pressed entity_id now led_ok fetch_res
        s).1.get_metadata "pending_start_time") = Value.num now := by
  unfold InstantFeedbackLight.button_pressed _set_led_color
  refine ⟨rfl, ?_, ?_⟩
  · rw [get_set_metadata_ne _ _ _ _ (by decide), get_set_metadata_same]
  · rw [get_set_metadata_same]

/-- C3: if an eligible execute tick occurs while Pending with
`now - pending_start_time > 3.0` and the fetched remote state equals the
last observed state, the monitor re-emits the signal of that actual remote
state (green for on, red otherwise — never amber/Transitioning) and clears
the pending flag. -/
theorem pending_timeout_reverts (entity_id : String)
    (now last_check pending_start : ℚ) (led_ok : Bool) (st : String)
    (s : ControllerExtension)
    (hlc : (s.get_metadata "last_check_time").asRat = some last_check)
    (hpend : (s.get_metadata "pending_change").truthy = true)
    (hgate : ¬ now - last_check < 1/20)
    (hlast : s.get_metadata "last_ha_state" = Value.str st)
    (hps : (s.get_metadata "pending_start_time").asRat = some pending_start)
    (htime : now - pending_start > 3) :
    InstantFeedbackLight.execute entity_id now led_ok (some st) s =
      some (((_set_led_color led_ok (if st = "on" then "green" else "red")
                s).1.set_metadata "pending_change"
               (Value.bool false)).set_metadata
              "last_check_time" (Value.num now),
            [Ev.fetch entity_id,
             Ev.led (if st = "on" then "green" else "red")]) ∧
    (if st = "on" then "green" else "red") ≠ "amber" ∧
    ((((_set_led_color led_ok (if st = "on" then "green" else "red")
          s).1.set_metadata "pending_change"
         (Value.bool false)).set_metadata
        "last_check_time" (Value.num now)).get_metadata
       "pending_change").truthy = false := by
  refine ⟨?_, ?_, ?_⟩
  · unfold InstantFeedbackLight.execute
    rw [hlc, hpend]
    dsimp only
    rw [if_pos rfl]
    dsimp only
    rw [if_neg hgate, hlast]
    rw [if_neg (by simp)]
    rw [if_pos rfl]
    rw [hps]
    dsimp only
    rw [if_pos htime]
    simp only [Value.str.injEq]
    rfl
  · by_cases h : st = "on" <;> simp [h]
  · rw [get_set_metadata_ne _ _ _ _ (by decide), get_set_metadata_same]
    rfl

/-- A monitor state 3+ seconds into an unconfirmed pending change: last
observed remote state "off", pending armed at time 0. -/
def ifl_test_state : ControllerExtension :=
  ⟨[], [("update_frequency", Value.num 1),
        ("last_ha_state", Value.str "off"),
        ("last_check_time", Value.num 0),
        ("pending_change", Value.bool true),
        ("pending_start_time", Value.num 0),
        ("current_led_color", Value.str "amber")]⟩

/-- Witness for C3: at `now = 4` the pending press from time 0 has timed
out; the fetch still reports "off", so the tick emits red (not amber) and
clears the pending flag. -/
theorem pending_timeout_reverts_witness :
    InstantFeedbackLight.execute "switch.desk" 4 true (some "off")
      ifl_test_state =
      some (((_set_led_color true "red"
                ifl_test_state).1.set_metadata "pending_change"
               (Value.bool false)).set_metadata
              "last_check_time" (Value.num 4),
            [Ev.fetch "switch.desk", Ev.led "red"]) ∧
    ((((_set_led_color true "red"
          ifl_test_state).1.set_metadata "pending_change"
         (Value.bool false)).set_metadata
        "last_check_time" (Value.num 4)).get_metadata
       "pending_change").truthy = false := by
  have h := pending_timeout_reverts "switch.desk" 4 0 0 true "off"
    ifl_test_state rfl (by decide) (by norm_num) rfl rfl (by norm_num)
  exact ⟨h.1, h.2.2⟩
